import Mathlib

/-!
Verification development for a link-state routing daemon (router.py).
Python dicts are modelled as association lists with insertion-order
semantics: updating an existing key keeps its position, a new key is
appended at the end.  Machine integers are modelled as Int (Python ints
are unbounded), float('inf') distances as `Option Int` with `none` = ∞.
Fallible code (KeyError, ValueError, nontermination of a while loop)
returns `Except String`.
-/

/-- Python `d.get(k)` on an insertion-ordered dict. -/
def dlookup {α : Type} : List (String × α) → String → Option α
  | [], _ => none
  | (k', v) :: rest, k => if k' = k then some v else dlookup rest k

/-- Python `d[k] = v`: replace in place if the key exists, else append. -/
def dinsert {α : Type} : List (String × α) → String → α → List (String × α)
  | [], k, v => [(k, v)]
  | (k', v') :: rest, k, v =>
    if k' = k then (k, v) :: rest else (k', v') :: dinsert rest k v

/-- Python `list(d.keys())`. -/
def dkeys {α : Type} (l : List (String × α)) : List String := l.map Prod.fst

/-- One LSDB entry, as built by `TabelaLSA.criar_entrada`. -/
structure Entrada where
  sequence_number : Int
  timestamp : Int
  addresses : List String
  links : List (String × Int)
deriving DecidableEq

/-- `TabelaLSA.criar_entrada`. -/
def criar_entrada (sequence_number : Int) (timestamp : Int)
    (addresses : List String) (links : List (String × Int)) : Entrada :=
  ⟨sequence_number, timestamp, addresses, links⟩

abbrev Tabela := List (String × Entrada)

/-- An LSA packet as consumed by the LSDB (`pacote` dict). -/
structure PacoteLSA where
  type : String
  router_id : String
  sequence_number : Int
  timestamp : Int
  addresses : List String
  links : List (String × Int)
deriving DecidableEq

/-- The placeholder entry created for a router first seen as a neighbor. -/
def placeholderEntrada : Entrada := criar_entrada (-1) 0 [] []

/-- The placeholder-creation loop of `TabelaLSA.atualizar_entrada`:
for each neighbor in the packet links, insert a placeholder unless the
router already has an entry. -/
def phFold (t : Tabela) (vs : List String) : Tabela :=
  vs.foldl
    (fun acc v => if (dlookup acc v).isSome then acc else dinsert acc v placeholderEntrada)
    t

/-- The accepting branch of `TabelaLSA.atualizar_entrada`: store the
packet's entry, then create placeholders for its link neighbors. -/
def aceitar (t : Tabela) (p : PacoteLSA) : Tabela :=
  phFold
    (dinsert t p.router_id
      (criar_entrada p.sequence_number p.timestamp p.addresses p.links))
    (p.links.map Prod.fst)

/-- `TabelaLSA.atualizar_entrada`: reject iff an entry exists and the
packet's sequence number is not strictly greater; returns the flag and
the (possibly) updated table. -/
def atualizar_entrada (t : Tabela) (p : PacoteLSA) : Bool × Tabela :=
  match dlookup t p.router_id with
  | some entrada =>
    if p.sequence_number ≤ entrada.sequence_number then (false, t)
    else (true, aceitar t p)
  | none => (true, aceitar t p)

/-- A sequence of `atualizar_entrada` calls (only the table evolution). -/
def applyAll (t : Tabela) (ps : List PacoteLSA) : Tabela :=
  ps.foldl (fun t p => (atualizar_entrada t p).2) t

-- ---------------------------------------------------------------------
-- SPF engine: CalculadoraCaminhos.dijkstra
-- ---------------------------------------------------------------------

abbrev DistMap := List (String × Option Int)

abbrev CamMap := List (String × Option String)

abbrev RotMap := List (String × Option String)

/-- `a < b` on distances, with `none` playing the role of float('inf'). -/
def olt : Option Int → Option Int → Bool
  | some a, some b => a < b
  | some _, none => true
  | none, _ => false

/-- Distance plus an edge cost; ∞ + c = ∞. -/
def oadd : Option Int → Int → Option Int
  | some a, c => some (a + c)
  | none, _ => none

/-- One step of Python `min(..., key=...)`: keep the first element whose
key value is minimal. -/
def pickMin (best : Option (String × Option Int)) (p : String × Option Int) :
    Option (String × Option Int) :=
  match best with
  | none => some p
  | some b => if olt p.2 b.2 then some p else some b

/-- `min((n for n in distancias if n not in marcados), key=..., default=None)`. -/
def minUnmarked (dist : DistMap) (marcados : List String) : Option String :=
  ((dist.filter (fun p => !(marcados.contains p.1))).foldl pickMin none).map Prod.fst

/-- `TabelaLSA.links`: `self._tabela[router_id]["links"]`, raising KeyError
when the router has no entry. -/
def tlinksE (t : Tabela) (r : String) : Except String (List (String × Int)) :=
  match dlookup t r with
  | some e => .ok e.links
  | none => .error ("KeyError: " ++ r)

/-- `TabelaLSA.addresses`: `self._tabela[router_id]["addresses"]`. -/
def taddressesE (t : Tabela) (r : String) : Except String (List String) :=
  match dlookup t r with
  | some e => .ok e.addresses
  | none => .error ("KeyError: " ++ r)

/-- The inner relaxation loop of `dijkstra` over the links of the selected
router.  `distancias[vizinho]` raises KeyError when the neighbor has no
distance entry. -/
def passo (dist : DistMap) (cam : CamMap) (roteador : String) (marc : List String) :
    List (String × Int) → Except String (DistMap × CamMap)
  | [] => .ok (dist, cam)
  | (vizinho, custo) :: rest =>
    if vizinho ∈ marc then passo dist cam roteador marc rest
    else
      match dlookup dist roteador with
      | none => .error ("KeyError: " ++ roteador)
      | some dr =>
        match dlookup dist vizinho with
        | none => .error ("KeyError: " ++ vizinho)
        | some dv =>
          if olt (oadd dr custo) dv then
            passo (dinsert dist vizinho (oadd dr custo))
              (dinsert cam vizinho (some roteador)) roteador marc rest
          else passo dist cam roteador marc rest

/-- The `while len(marcados) < len(distancias)` loop of `dijkstra`.  The
fuel is the number of distance entries, which bounds the number of
iterations (each one marks a fresh router). -/
def dloop (t : Tabela) : Nat → DistMap → CamMap → List String → Except String CamMap
  | 0, _, cam, _ => .ok cam
  | fuel + 1, dist, cam, marc =>
    if marc.length < dist.length then
      match minUnmarked dist marc with
      | none => .ok cam
      | some roteador =>
        match tlinksE t roteador with
        | .error e => .error e
        | .ok links =>
          match passo dist cam roteador (marc ++ [roteador]) links with
          | .error e => .error e
          | .ok (dist', cam') => dloop t fuel dist' cam' (marc ++ [roteador])
    else .ok cam

/-- `CalculadoraCaminhos.dijkstra`: distances start at ∞ for every table
key, the local router is seeded with 0 (`distancias[self.router_id] = 0`),
and the predecessor map `caminhos` is returned. -/
def dijkstra (selfId : String) (t : Tabela) : Except String CamMap :=
  let ks := dkeys t
  let dist0 : DistMap := ks.map (fun r => (r, none))
  let cam0 : CamMap := ks.map (fun r => (r, none))
  let dist1 := dinsert dist0 selfId (some 0)
  dloop t dist1.length dist1 cam0 []

-- ---------------------------------------------------------------------
-- GerenciadorRotas: next-hop table and route commands
-- ---------------------------------------------------------------------

/-- The backward predecessor walk of `atualizar_proximo_pulo`:
`while pulo is not None and caminhos[pulo] != self.router_id: pulo = caminhos[pulo]`.
The fuel bounds the iterations; a terminating walk visits distinct keys,
so `caminhos.length + 1` fuel is always enough.  Running out of fuel
models the Python loop never terminating (a predecessor cycle). -/
def walk (cam : CamMap) (selfId : String) : Nat → Option String → Except String (Option String)
  | _, none => .ok none
  | 0, some p =>
    match dlookup cam p with
    | none => .error ("KeyError: " ++ p)
    | some pred =>
      if pred = some selfId then .ok (some p)
      else .error "predecessor walk does not terminate"
  | n + 1, some p =>
    match dlookup cam p with
    | none => .error ("KeyError: " ++ p)
    | some pred =>
      if pred = some selfId then .ok (some p)
      else walk cam selfId n pred

/-- The `for destino in caminhos` loop of `atualizar_proximo_pulo`:
every destination other than the local router is assigned the walk
result (possibly None). -/
def proximoPuloFold (cam : CamMap) (selfId : String) (rot : RotMap) :
    CamMap → Except String RotMap
  | [] => .ok rot
  | (destino, _) :: rest =>
    if destino = selfId then proximoPuloFold cam selfId rot rest
    else
      match walk cam selfId (cam.length + 1) (some destino) with
      | .error e => .error e
      | .ok pulo => proximoPuloFold cam selfId (dinsert rot destino pulo) rest

/-- Lexicographic code-point comparison of char lists (Python string <). -/
def lexLt : List Char → List Char → Bool
  | [], [] => false
  | [], _ :: _ => true
  | _ :: _, [] => false
  | x :: xs, y :: ys => if x < y then true else if y < x then false else lexLt xs ys

/-- Python `a < b` on strings. -/
def strLt (a b : String) : Bool := lexLt a.data b.data

/-- Sorted insertion used to model `dict(sorted(self._roteamento.items()))`. -/
def insertSortedRot (x : String × Option String) : RotMap → RotMap
  | [] => [x]
  | y :: ys => if strLt x.1 y.1 then x :: y :: ys else y :: insertSortedRot x ys

/-- `dict(sorted(items))`: rebuild the routing dict in key order. -/
def sortByKey (l : RotMap) : RotMap := l.foldr insertSortedRot []

/-- `GerenciadorRotas.atualizar_proximo_pulo` acting on the persistent
`_roteamento` dict. -/
def atualizar_proximo_pulo (selfId : String) (rot : RotMap) (cam : CamMap) :
    Except String RotMap :=
  match proximoPuloFold cam selfId rot cam with
  | .error e => .error e
  | .ok rot' => .ok (sortByKey rot')

/-- The body of `GerenciadorRotas.atualizar_rotas`: gateways unknown to
`neighbors_ip` (None included) are skipped, otherwise one
`ip route replace` command is emitted per advertised prefix. -/
def rotasFold (t : Tabela) (neighborsIp : List (String × String))
    (cmds : List (List String)) : RotMap → Except String (List (List String))
  | [] => .ok cmds
  | (destino, gateway) :: rest =>
    match gateway with
    | none => rotasFold t neighborsIp cmds rest
    | some gw =>
      match dlookup neighborsIp gw with
      | none => rotasFold t neighborsIp cmds rest
      | some ipGw =>
        match taddressesE t destino with
        | .error e => .error e
        | .ok addrs =>
          rotasFold t neighborsIp
            (cmds ++ addrs.map (fun a => ["ip", "route", "replace", a, "via", ipGw])) rest

/-- `GerenciadorRotas.atualizar_rotas`, returning the kernel commands. -/
def atualizar_rotas (t : Tabela) (neighborsIp : List (String × String))
    (rot : RotMap) : Except String (List (List String)) :=
  rotasFold t neighborsIp [] rot

-- ---------------------------------------------------------------------
-- LSDB.atualizar and ProcessadorLSA
-- ---------------------------------------------------------------------

/-- The mutable state owned by `LSDB`/`GerenciadorRotas`. -/
structure LSDBState where
  tabela : Tabela
  roteamento : RotMap
deriving DecidableEq

/-- `LSDB.atualizar`: reject without any change, or accept and rerun
SPF, next-hop derivation and route installation. -/
def lsdb_atualizar (selfId : String) (neighborsIp : List (String × String))
    (st : LSDBState) (p : PacoteLSA) :
    Except String (Bool × LSDBState × List (List String)) :=
  match atualizar_entrada st.tabela p with
  | (false, _) => .ok (false, st, [])
  | (true, t') =>
    match dijkstra selfId t' with
    | .error e => .error e
    | .ok cam =>
      match atualizar_proximo_pulo selfId st.roteamento cam with
      | .error e => .error e
      | .ok rot' =>
        match atualizar_rotas t' neighborsIp rot' with
        | .error e => .error e
        | .ok cmds => .ok (true, ⟨t', rot'⟩, cmds)

/-- `LSABroadcaster.encaminhar_para_vizinhos`: the packet goes verbatim
to every recognized IP different from the incoming one. -/
def encaminhar_para_vizinhos (neighborsIp : List (String × String))
    (p : PacoteLSA) (neighborIp : String) : List (PacoteLSA × String) :=
  ((neighborsIp.map Prod.snd).filter (fun ip => ip != neighborIp)).map (fun ip => (p, ip))

/-- `ProcessadorLSA.processar`: flood only when the LSDB accepted. -/
def processadorLSA (selfId : String) (neighborsIp : List (String × String))
    (st : LSDBState) (p : PacoteLSA) (receivedIp : String) :
    Except String (LSDBState × List (PacoteLSA × String) × List (List String)) :=
  match lsdb_atualizar selfId neighborsIp st p with
  | .error e => .error e
  | .ok (accepted, st', cmds) =>
    if accepted then .ok (st', encaminhar_para_vizinhos neighborsIp p receivedIp, cmds)
    else .ok (st', [], cmds)

-- ---------------------------------------------------------------------
-- CalculadoraCusto and Python int()
-- ---------------------------------------------------------------------

/-- Python whitespace stripped by `str.strip()` (ASCII part). -/
def isPyWs (c : Char) : Bool :=
  c = ' ' || c = '\t' || c = '\n' || c = '\r' || c = '\x0b' || c = '\x0c'

def stripWsL (l : List Char) : List Char :=
  ((l.dropWhile isPyWs).reverse.dropWhile isPyWs).reverse

def digitVal (c : Char) : Nat := c.toNat - 48

/-- Digit run of a Python int literal: single underscores are allowed
between digits only. -/
def digitsUnderscore : Nat → List Char → Option Nat
  | acc, [] => some acc
  | acc, c :: cs =>
    if c.isDigit then digitsUnderscore (acc * 10 + digitVal c) cs
    else
      if c = '_' then
        match cs with
        | c2 :: cs2 =>
          if c2.isDigit then digitsUnderscore (acc * 10 + digitVal c2) cs2 else none
        | [] => none
      else none

def parseUnsigned : List Char → Option Nat
  | [] => none
  | c :: cs => if c.isDigit then digitsUnderscore (digitVal c) cs else none

/-- Python `int(s)` for ASCII decimal inputs: strip whitespace, optional
sign, nonempty digit run; `int("")` fails. -/
def pythonInt (s : String) : Option Int :=
  match stripWsL s.data with
  | '+' :: rest => (parseUnsigned rest).map (fun n => (n : Int))
  | '-' :: rest => (parseUnsigned rest).map (fun n => -(n : Int))
  | rest => (parseUnsigned rest).map (fun n => (n : Int))

def custoKey (a b : String) : String := "CUSTO_" ++ a ++ "_" ++ b ++ "_net"

/-- `CalculadoraCusto.obter`: `os.getenv` of the (self, neighbor) key,
falling back to the swapped key only when the first is unset (None);
then Python `int()` of the value.  The environment maps a variable name
to its value, `none` meaning unset. -/
def obter (env : String → Option String) (routerId neighborId : String) :
    Except String Int :=
  let custo0 := env (custoKey routerId neighborId)
  let custo1 :=
    match custo0 with
    | none => env (custoKey neighborId routerId)
    | some c => some c
  match custo1 with
  | none => .error ("Custo não definido para " ++ routerId ++ " <-> " ++ neighborId)
  | some c =>
    match pythonInt c with
    | some n => .ok n
    | none => .error ("invalid literal for int() with base 10: " ++ c)

-- ---------------------------------------------------------------------
-- HELLO processing (GerenciadorVizinhos / ProcessadorHello)
-- ---------------------------------------------------------------------

/-- An incoming HELLO as read with `pacote.get(...)` (fields may be absent). -/
structure PacoteHello where
  router_id : Option String
  known_neighbors : Option (List String)
deriving DecidableEq

/-- The neighbor tables plus the LSA-emitter one-shot flag. -/
structure HelloState where
  detected : List (String × Int)
  recognized : List (String × String)
  iniciado : Bool
deriving DecidableEq

/-- `GerenciadorVizinhos.processar_hello` followed by
`ProcessadorHello.processar`.  The cost lookup happens before any table
mutation, so a missing cost leaves the state untouched. -/
def processar_hello (env : String → Option String) (selfId : String)
    (st : HelloState) (p : PacoteHello) (receivedIp : String) :
    Except String HelloState :=
  match p.router_id with
  | none => .ok st
  | some receivedId =>
    match obter env selfId receivedId with
    | .error e => .error e
    | .ok custo =>
      let detected' := dinsert st.detected receivedId custo
      let cond : Bool :=
        match p.known_neighbors with
        | none => false
        | some ns =>
          !ns.isEmpty && ns.contains selfId && !(dlookup st.recognized receivedId).isSome
      if cond then .ok ⟨detected', dinsert st.recognized receivedId receivedIp, true⟩
      else .ok ⟨detected', st.recognized, st.iniciado⟩

/-- One `ReceptorPacotes` iteration for a HELLO: exceptions are caught
and the state survives unchanged. -/
def receiverStep (env : String → Option String) (selfId : String)
    (st : HelloState) (p : PacoteHello) (receivedIp : String) : HelloState :=
  match processar_hello env selfId st p receivedIp with
  | .ok st' => st'
  | .error _ => st

-- ---------------------------------------------------------------------
-- HELLO emission (HelloPacketBuilder wired by Roteador)
-- ---------------------------------------------------------------------

structure PacoteHelloOut where
  type : String
  router_id : String
  timestamp : Int
  ip_address : String
  known_neighbors : List String
deriving DecidableEq

/-- `HelloPacketBuilder.criar_pacote`: `list(self._neighbors.keys())`. -/
def hello_criar_pacote (routerId : String) (neighbors : List (String × Int))
    (timestamp : Int) (ipAddress : String) : PacoteHelloOut :=
  ⟨"HELLO", routerId, timestamp, ipAddress, dkeys neighbors⟩

/-- The wiring in `Roteador.iniciar`: the HELLO builder receives the
`_neighbors_detected` dict. -/
def roteador_hello_pacote (selfId : String) (st : HelloState)
    (timestamp : Int) (ipAddress : String) : PacoteHelloOut :=
  hello_criar_pacote selfId st.detected timestamp ipAddress

-- ---------------------------------------------------------------------
-- Interface inventory and LSA emission
-- ---------------------------------------------------------------------

/-- One address record from `psutil.net_if_addrs()`. -/
structure RawAddr where
  family : Nat
  address : String
  broadcast : Option String
deriving DecidableEq

/-- One entry of `InterfaceManager.listar_enderecos`.  The outer Option
distinguishes a dict without a "broadcast" key (a local /24 prefix)
from one where the key holds a possibly-None broadcast address. -/
structure IfEntry where
  address : String
  broadcast : Option (Option String)
deriving DecidableEq

def AF_INET : Nat := 2

/-- `pre` is a prefix of the char list (Python str.startswith). -/
def prefixoDe : List Char → List Char → Bool
  | [], _ => true
  | _ :: _, [] => false
  | c :: cs, d :: ds => c = d && prefixoDe cs ds

/-- Python `s.startswith(pre)`. -/
def comecaCom (s pre : String) : Bool := prefixoDe pre.data s.data

/-- Split a char list on a separator character. -/
def splitOnChar (c : Char) : List Char → List (List Char)
  | [] => [[]]
  | x :: xs =>
    if x = c then [] :: splitOnChar c xs
    else
      match splitOnChar c xs with
      | y :: ys => (x :: y) :: ys
      | [] => [[x]]

/-- `IPv4Network(ip + "/24", strict=False).network_address` rendered with
the /24 suffix, for a well-formed dotted-quad input: keep the first three
octets and zero the last. -/
def network24 (ip : String) : String :=
  String.intercalate "." (((splitOnChar '.' ip.data).map String.mk).take 3 ++ ["0"]) ++ "/24"

/-- `InterfaceManager.listar_enderecos`: keep eth* interfaces; IPv4
addresses starting with "192" become local /24 prefixes, the rest keep
their address and broadcast. -/
def listar_enderecos (ifs : List (String × List RawAddr)) : List IfEntry :=
  ifs.foldl
    (fun acc nif =>
      if comecaCom nif.1 "eth" then
        nif.2.foldl
          (fun acc2 a =>
            if a.family = AF_INET then
              if comecaCom a.address "192" then
                acc2 ++ [⟨network24 a.address, none⟩]
              else acc2 ++ [⟨a.address, some a.broadcast⟩]
            else acc2)
          acc
      else acc)
    []

/-- `LSAPacketBuilder.criar_pacote`: bump the counter, advertise the
address of every inventory entry, copy the neighbor costs. -/
def lsa_criar_pacote (routerId : String) (neighborsCost : List (String × Int))
    (interfaces : List IfEntry) (seqBefore : Int) (timestamp : Int) :
    PacoteLSA × Int :=
  let seq := seqBefore + 1
  (⟨"LSA", routerId, seq, timestamp, interfaces.map IfEntry.address, neighborsCost⟩, seq)

/-- Following the spec's words (for comparison only): the LocalPrefix
prefixes of an inventory are the addresses of its entries that carry no
broadcast field. -/
def specLocalPrefixes (l : List IfEntry) : List String :=
  (l.filter (fun e => e.broadcast.isNone)).map IfEntry.address

-- ---------------------------------------------------------------------
-- Concrete inputs used by counterexamples and witnesses
-- ---------------------------------------------------------------------

def pacoteA : PacoteLSA := ⟨"LSA", "a", 1, 0, [], []⟩

def pacoteB : PacoteLSA := ⟨"LSA", "b", 1, 0, [], []⟩

def camAB : CamMap := [("a", none), ("b", none)]

def envVazio : String → Option String := fun _ => none

/-- CUSTO_a_b_net is set to the empty string, CUSTO_b_a_net to "7". -/
def envC9 : String → Option String := fun s =>
  if s = custoKey "a" "b" then some "" else if s = custoKey "b" "a" then some "7" else none

/-- Only CUSTO_a_b_net is set, to "5". -/
def envC3 : String → Option String := fun s =>
  if s = custoKey "a" "b" then some "5" else none

/-- A HELLO from b that does not list a among its known neighbors. -/
def helloDeB : PacoteHello := ⟨some "b", some ["c"]⟩

def estadoInicial : HelloState := ⟨[], [], false⟩

def ifsDemo : List (String × List RawAddr) :=
  [("eth0", [⟨2, "10.0.0.2", some "10.0.0.255"⟩]),
   ("eth1", [⟨2, "192.168.1.5", none⟩])]

-- ---------------------------------------------------------------------
-- Association-list lemmas
-- ---------------------------------------------------------------------

theorem dlookup_dinsert_self {α : Type} (l : List (String × α)) (k : String) (v : α) :
    dlookup (dinsert l k v) k = some v := by
  induction l with
  | nil => simp [dinsert, dlookup]
  | cons hd tl ih =>
    obtain ⟨k', v'⟩ := hd
    by_cases h : k' = k
    · simp [dinsert, h, dlookup]
    · simp [dinsert, h, dlookup, ih]

theorem dlookup_dinsert_ne {α : Type} (l : List (String × α)) (k k' : String) (v : α)
    (h : k' ≠ k) : dlookup (dinsert l k v) k' = dlookup l k' := by
  have h' : ¬ k = k' := fun hh => h hh.symm
  induction l with
  | nil => simp [dinsert, dlookup, h']
  | cons hd tl ih =>
    obtain ⟨k0, v0⟩ := hd
    by_cases h0 : k0 = k
    · subst h0
      simp [dinsert, dlookup, h']
    · by_cases h1 : k0 = k'
      · simp [dinsert, h0, dlookup, h1, h', h]
      · simp [dinsert, h0, dlookup, h1, ih]

theorem dlookup_none_iff {α : Type} (l : List (String × α)) (k : String) :
    dlookup l k = none ↔ k ∉ l.map Prod.fst := by
  induction l with
  | nil => simp [dlookup]
  | cons hd tl ih =>
    obtain ⟨k', v⟩ := hd
    by_cases h : k' = k
    · simp [dlookup, h]
    · have h' : ¬ k = k' := fun hh => h hh.symm
      simp [dlookup, h, ih, h']

theorem dinsert_of_not_mem {α : Type} (l : List (String × α)) (k : String) (v : α)
    (h : k ∉ l.map Prod.fst) : dinsert l k v = l ++ [(k, v)] := by
  induction l with
  | nil => simp [dinsert]
  | cons hd tl ih =>
    obtain ⟨k', v'⟩ := hd
    simp only [List.map_cons, List.mem_cons] at h
    push_neg at h
    have h' : ¬ k' = k := fun hh => h.1 hh.symm
    simp [dinsert, h', ih h.2]

-- phFold lemmas --------------------------------------------------------

theorem phFold_preserves (vs : List String) (t : Tabela) (k : String) (e : Entrada)
    (h : dlookup t k = some e) : dlookup (phFold t vs) k = some e := by
  induction vs generalizing t with
  | nil => simpa [phFold] using h
  | cons v vs ih =>
    simp only [phFold, List.foldl_cons]
    cases hm : (dlookup t v).isSome with
    | true => simpa [phFold, hm] using ih t h
    | false =>
      rw [if_neg (by simp)]
      have h2 : dlookup (dinsert t v placeholderEntrada) k = some e := by
        by_cases hv : k = v
        · subst hv
          rw [h] at hm
          simp at hm
        · rw [dlookup_dinsert_ne t v k placeholderEntrada hv]
          exact h
      exact ih _ h2

theorem phFold_not_mem (vs : List String) (t : Tabela) (k : String)
    (h : k ∉ vs) : dlookup (phFold t vs) k = dlookup t k := by
  induction vs generalizing t with
  | nil => simp [phFold]
  | cons v vs ih =>
    simp only [List.mem_cons] at h
    push_neg at h
    simp only [phFold, List.foldl_cons]
    cases hm : (dlookup t v).isSome with
    | true =>
      rw [if_pos rfl]
      exact ih t h.2
    | false =>
      rw [if_neg (by simp)]
      have h2 := ih (dinsert t v placeholderEntrada) h.2
      simp only [phFold] at h2
      rw [h2, dlookup_dinsert_ne t v k placeholderEntrada h.1]

theorem phFold_creates (vs : List String) (t : Tabela) (v : String)
    (hmem : v ∈ vs) (h : dlookup t v = none) :
    dlookup (phFold t vs) v = some placeholderEntrada := by
  induction vs generalizing t with
  | nil => cases hmem
  | cons w ws ih =>
    simp only [phFold, List.foldl_cons]
    by_cases hw : w = v
    · subst hw
      rw [h]
      simp only [Option.isSome_none, Bool.false_eq_true, if_false]
      have h2 : dlookup (dinsert t w placeholderEntrada) w = some placeholderEntrada :=
        dlookup_dinsert_self t w placeholderEntrada
      exact phFold_preserves ws _ w placeholderEntrada h2
    · have hmem' : v ∈ ws := by
        rcases List.mem_cons.mp hmem with h1 | h1
        · exact absurd h1.symm hw
        · exact h1
      cases hm : (dlookup t w).isSome with
      | true =>
        rw [if_pos rfl]
        exact ih t hmem' h
      | false =>
        rw [if_neg (by simp)]
        apply ih _ hmem'
        rw [dlookup_dinsert_ne t w v placeholderEntrada (fun hh => hw hh.symm)]
        exact h

-- aceitar lemmas -------------------------------------------------------

theorem aceitar_spec (t : Tabela) (p : PacoteLSA) :
    dlookup (aceitar t p) p.router_id =
      some (criar_entrada p.sequence_number p.timestamp p.addresses p.links)
    ∧ (∀ v ∈ p.links.map Prod.fst, v ≠ p.router_id → dlookup t v = none →
        dlookup (aceitar t p) v = some placeholderEntrada)
    ∧ (∀ q e, q ≠ p.router_id → dlookup t q = some e →
        dlookup (aceitar t p) q = some e) := by
  unfold aceitar
  refine ⟨?_, ?_, ?_⟩
  · exact phFold_preserves _ _ _ _ (dlookup_dinsert_self t p.router_id _)
  · intro v hv hne hnone
    apply phFold_creates _ _ _ hv
    rw [dlookup_dinsert_ne t p.router_id v _ hne]
    exact hnone
  · intro q e hq he
    apply phFold_preserves
    rw [dlookup_dinsert_ne t p.router_id q _ hq]
    exact he

theorem atualizar_entrada_mono_step (t : Tabela) (p : PacoteLSA) (r : String) (e : Entrada)
    (h : dlookup t r = some e) :
    ∃ e', dlookup (atualizar_entrada t p).2 r = some e' ∧
      e.sequence_number ≤ e'.sequence_number := by
  by_cases hr : r = p.router_id
  · subst hr
    by_cases hle : p.sequence_number ≤ e.sequence_number
    · refine ⟨e, ?_, le_refl _⟩
      simp [atualizar_entrada, h, hle]
    · refine ⟨criar_entrada p.sequence_number p.timestamp p.addresses p.links, ?_, ?_⟩
      · simp only [atualizar_entrada, h, if_neg hle]
        exact (aceitar_spec t p).1
      · exact le_of_lt (not_le.mp hle)
  · cases hl : dlookup t p.router_id with
    | none =>
      refine ⟨e, ?_, le_refl _⟩
      simp only [atualizar_entrada, hl]
      exact (aceitar_spec t p).2.2 r e hr h
    | some e0 =>
      by_cases hle : p.sequence_number ≤ e0.sequence_number
      · refine ⟨e, ?_, le_refl _⟩
        simp [atualizar_entrada, hl, hle, h]
      · refine ⟨e, ?_, le_refl _⟩
        simp only [atualizar_entrada, hl, if_neg hle]
        exact (aceitar_spec t p).2.2 r e hr h

-- ---------------------------------------------------------------------
-- Claim theorems: C1, C7, C8
-- ---------------------------------------------------------------------

/-- C1: `TabelaLSA.atualizar_entrada` (wrapped by `LSDB.atualizar`)
returns true iff the table has no entry for the packet's router id or
the stored sequence number is strictly smaller; on acceptance it stores
the packet's entry, creates a placeholder for every linked router id
not yet present, and leaves every other entry intact; on rejection the
table is unchanged. -/
theorem atualizar_entrada_caracterizacao (t : Tabela) (p : PacoteLSA) :
    ((atualizar_entrada t p).1 = true ↔
      dlookup t p.router_id = none ∨
        ∃ e, dlookup t p.router_id = some e ∧
          e.sequence_number < p.sequence_number)
    ∧ ((atualizar_entrada t p).1 = true →
        dlookup (atualizar_entrada t p).2 p.router_id =
          some (criar_entrada p.sequence_number p.timestamp p.addresses p.links)
        ∧ (∀ v ∈ p.links.map Prod.fst, v ≠ p.router_id → dlookup t v = none →
            dlookup (atualizar_entrada t p).2 v = some placeholderEntrada)
        ∧ (∀ q e, q ≠ p.router_id → dlookup t q = some e →
            dlookup (atualizar_entrada t p).2 q = some e))
    ∧ ((atualizar_entrada t p).1 = false → (atualizar_entrada t p).2 = t) := by
  cases hl : dlookup t p.router_id with
  | none =>
    refine ⟨?_, ?_, ?_⟩
    · simp [atualizar_entrada, hl]
    · intro _
      simp only [atualizar_entrada, hl]
      exact aceitar_spec t p
    · intro hfalse
      simp [atualizar_entrada, hl] at hfalse
  | some e0 =>
    by_cases hle : p.sequence_number ≤ e0.sequence_number
    · refine ⟨?_, ?_, ?_⟩
      · simp only [atualizar_entrada, hl, if_pos hle]
        constructor
        · intro hh
          simp at hh
        · rintro (hh | ⟨e, he, hlt⟩)
          · simp at hh
          · injection he with he'
            subst he'
            exact absurd hle (not_le.mpr hlt)
      · intro htrue
        simp [atualizar_entrada, hl, if_pos hle] at htrue
      · intro _
        simp [atualizar_entrada, hl, if_pos hle]
    · refine ⟨?_, ?_, ?_⟩
      · simp only [atualizar_entrada, hl, if_neg hle]
        constructor
        · intro _
          exact Or.inr ⟨e0, rfl, not_le.mp hle⟩
        · intro _
          trivial
      · intro _
        simp only [atualizar_entrada, hl, if_neg hle]
        exact aceitar_spec t p
      · intro hfalse
        simp [atualizar_entrada, hl, if_neg hle] at hfalse

theorem atualizar_entrada_caracterizacao_witness :
    (atualizar_entrada [] pacoteA).1 = true :=
  (atualizar_entrada_caracterizacao [] pacoteA).1.mpr (Or.inl rfl)

/-- C7: across any sequence of updates the stored sequence number of a
router never decreases; an accepted LSA for an existing entry carries a
strictly larger sequence number; a stale LSA is discarded with the table
untouched; and entries of other routers (in particular placeholders)
are never overwritten by an update for a different router id. -/
theorem lsdb_seq_monotonia :
    (∀ (t : Tabela) (ps : List PacoteLSA) (r : String) (e : Entrada),
        dlookup t r = some e →
        ∃ e', dlookup (applyAll t ps) r = some e' ∧
          e.sequence_number ≤ e'.sequence_number)
    ∧ (∀ (t : Tabela) (p : PacoteLSA) (e : Entrada),
        dlookup t p.router_id = some e → (atualizar_entrada t p).1 = true →
        e.sequence_number < p.sequence_number)
    ∧ (∀ (t : Tabela) (p : PacoteLSA) (e : Entrada),
        dlookup t p.router_id = some e → p.sequence_number ≤ e.sequence_number →
        atualizar_entrada t p = (false, t))
    ∧ (∀ (t : Tabela) (p : PacoteLSA) (v : String) (e : Entrada),
        v ≠ p.router_id → dlookup t v = some e →
        dlookup (atualizar_entrada t p).2 v = some e) := by
  refine ⟨?_, ?_, ?_, ?_⟩
  · intro t ps
    induction ps generalizing t with
    | nil =>
      intro r e h
      exact ⟨e, by simpa [applyAll] using h, le_refl _⟩
    | cons p ps ih =>
      intro r e h
      obtain ⟨e1, h1, hle1⟩ := atualizar_entrada_mono_step t p r e h
      obtain ⟨e2, h2, hle2⟩ := ih (atualizar_entrada t p).2 r e1 h1
      refine ⟨e2, ?_, le_trans hle1 hle2⟩
      simpa [applyAll] using h2
  · intro t p e h htrue
    by_cases hle : p.sequence_number ≤ e.sequence_number
    · simp [atualizar_entrada, h, if_pos hle] at htrue
    · exact not_le.mp hle
  · intro t p e h hle
    simp [atualizar_entrada, h, if_pos hle]
  · intro t p v e hv he
    cases hl : dlookup t p.router_id with
    | none =>
      simp only [atualizar_entrada, hl]
      exact (aceitar_spec t p).2.2 v e hv he
    | some e0 =>
      by_cases hle : p.sequence_number ≤ e0.sequence_number
      · simp [atualizar_entrada, hl, if_pos hle, he]
      · simp only [atualizar_entrada, hl, if_neg hle]
        exact (aceitar_spec t p).2.2 v e hv he

theorem lsdb_seq_monotonia_witness :
    atualizar_entrada (applyAll [] [pacoteA]) pacoteA = (false, applyAll [] [pacoteA]) :=
  lsdb_seq_monotonia.2.2.1 (applyAll [] [pacoteA]) pacoteA
    (criar_entrada 1 0 [] []) rfl (by decide)

/-- C8: re-applying the same LSA packet immediately after a first call
returns false and leaves the table exactly as the first call left it. -/
theorem atualizar_entrada_idempotente (t : Tabela) (p : PacoteLSA) :
    (atualizar_entrada (atualizar_entrada t p).2 p).1 = false ∧
    (atualizar_entrada (atualizar_entrada t p).2 p).2 = (atualizar_entrada t p).2 := by
  have key : ∃ e, dlookup (atualizar_entrada t p).2 p.router_id = some e ∧
      p.sequence_number ≤ e.sequence_number := by
    cases hl : dlookup t p.router_id with
    | none =>
      refine ⟨criar_entrada p.sequence_number p.timestamp p.addresses p.links, ?_, le_refl _⟩
      simp only [atualizar_entrada, hl]
      exact (aceitar_spec t p).1
    | some e0 =>
      by_cases hle : p.sequence_number ≤ e0.sequence_number
      · refine ⟨e0, ?_, hle⟩
        simp [atualizar_entrada, hl, if_pos hle]
      · refine ⟨criar_entrada p.sequence_number p.timestamp p.addresses p.links, ?_, le_refl _⟩
        simp only [atualizar_entrada, hl, if_neg hle]
        exact (aceitar_spec t p).1
  obtain ⟨e, he, hle⟩ := key
  generalize hT : (atualizar_entrada t p).2 = t1 at he ⊢
  constructor
  · simp [atualizar_entrada, he, if_pos hle]
  · simp [atualizar_entrada, he, if_pos hle]

-- Dijkstra first-iteration lemmas --------------------------------------

theorem filter_contains_nil (dist : DistMap) :
    dist.filter (fun p => !(([] : List String).contains p.1)) = dist := by
  induction dist with
  | nil => rfl
  | cons hd tl ih => simp [List.filter, ih, List.contains]

theorem pickMin_all_none (l : List (String × Option Int)) (b : String × Option Int)
    (hall : ∀ p ∈ l, p.2 = none) (hb : b.2 = none) :
    l.foldl pickMin (some b) = some b := by
  induction l generalizing b with
  | nil => rfl
  | cons p l ih =>
    have hp := hall p (by simp)
    simp only [List.foldl_cons]
    have hstep : pickMin (some b) p = some b := by
      simp [pickMin, hp, hb, olt]
    rw [hstep]
    exact ih b (fun q hq => hall q (by simp [hq])) hb

theorem minUnmarked_seeded (l : List (String × Option Int)) (s : String)
    (hall : ∀ p ∈ l, p.2 = none) :
    minUnmarked (l ++ [(s, some 0)]) [] = some s := by
  unfold minUnmarked
  rw [filter_contains_nil]
  cases l with
  | nil => rfl
  | cons p l =>
    have hp := hall p (by simp)
    rw [List.cons_append, List.foldl_cons]
    have h1 : pickMin none p = some p := rfl
    rw [h1, List.foldl_append]
    rw [pickMin_all_none l p (fun q hq => hall q (by simp [hq])) hp]
    simp only [List.foldl_cons, List.foldl_nil]
    simp [pickMin, hp, olt]

/-- Helper: with no entry for the local router, the first loop iteration
of `dijkstra` selects the seeded local router and its links lookup
raises KeyError. -/
theorem dijkstra_erro_sem_local (selfId : String) (t : Tabela)
    (h : dlookup t selfId = none) :
    dijkstra selfId t = .error ("KeyError: " ++ selfId) := by
  have hnot : selfId ∉ dkeys t := (dlookup_none_iff t selfId).mp h
  have hnot0 : selfId ∉
      ((dkeys t).map (fun r => ((r : String), (none : Option Int)))).map Prod.fst := by
    simpa using hnot
  have hall : ∀ p ∈ (dkeys t).map (fun r => ((r : String), (none : Option Int))),
      p.2 = (none : Option Int) := by
    intro p hp
    simp only [List.mem_map] at hp
    obtain ⟨r, _, rfl⟩ := hp
    rfl
  show dloop t (dinsert ((dkeys t).map (fun r => (r, none))) selfId (some 0)).length
      (dinsert ((dkeys t).map (fun r => (r, none))) selfId (some 0))
      ((dkeys t).map (fun r => (r, none))) [] = .error ("KeyError: " ++ selfId)
  rw [dinsert_of_not_mem _ _ _ hnot0]
  have hlen : (((dkeys t).map (fun r => ((r : String), (none : Option Int)))) ++
      [(selfId, some 0)]).length =
      ((dkeys t).map (fun r => ((r : String), (none : Option Int)))).length + 1 := by
    simp
  rw [hlen]
  rw [dloop]
  rw [if_pos (by simp)]
  rw [minUnmarked_seeded _ selfId hall]
  show (match tlinksE t selfId with
    | Except.error e => Except.error e
    | Except.ok links =>
      match passo (((dkeys t).map (fun r => ((r : String), (none : Option Int)))) ++
          [(selfId, some 0)]) ((dkeys t).map (fun r => (r, none))) selfId
          ([] ++ [selfId]) links with
      | Except.error e => Except.error e
      | Except.ok (dist', cam') =>
        dloop t ((dkeys t).map (fun r => ((r : String), (none : Option Int)))).length
          dist' cam' ([] ++ [selfId])) = Except.error ("KeyError: " ++ selfId)
  have hlinks : tlinksE t selfId = .error ("KeyError: " ++ selfId) := by
    simp [tlinksE, h]
  rw [hlinks]

/-- C10: `CalculadoraCaminhos.dijkstra` raises KeyError whenever the
local router has no LSDB entry — it seeds the local router with
distance 0, selects it first, and looks up its links without a guard —
and consequently `LSDB.atualizar` on an accepted remote LSA that does
not mention the local router in its links (with no prior local entry)
also raises KeyError. -/
theorem dijkstra_requer_entrada_local :
    (∀ (selfId : String) (t : Tabela), dlookup t selfId = none →
        dijkstra selfId t = .error ("KeyError: " ++ selfId))
    ∧ (∀ (selfId : String) (nIp : List (String × String)) (st : LSDBState) (p : PacoteLSA),
        (atualizar_entrada st.tabela p).1 = true →
        p.router_id ≠ selfId →
        selfId ∉ p.links.map Prod.fst →
        dlookup st.tabela selfId = none →
        lsdb_atualizar selfId nIp st p = .error ("KeyError: " ++ selfId)) := by
  constructor
  · exact dijkstra_erro_sem_local
  · intro selfId nIp st p hacc hrid hlinks hnone
    have hpair : atualizar_entrada st.tabela p =
        (true, (atualizar_entrada st.tabela p).2) := by
      rw [← hacc]
    have ht' : (atualizar_entrada st.tabela p).2 = aceitar st.tabela p := by
      cases hl : dlookup st.tabela p.router_id with
      | none => simp [atualizar_entrada, hl]
      | some e0 =>
        by_cases hle : p.sequence_number ≤ e0.sequence_number
        · simp [atualizar_entrada, hl, if_pos hle] at hacc
        · simp [atualizar_entrada, hl, if_neg hle]
    have hnone' : dlookup (atualizar_entrada st.tabela p).2 selfId = none := by
      rw [ht']
      unfold aceitar
      rw [phFold_not_mem _ _ _ hlinks]
      rw [dlookup_dinsert_ne _ _ _ _ (Ne.symm hrid)]
      exact hnone
    unfold lsdb_atualizar
    rw [hpair]
    show (match dijkstra selfId (atualizar_entrada st.tabela p).2 with
      | Except.error e => Except.error e
      | Except.ok cam =>
        match atualizar_proximo_pulo selfId st.roteamento cam with
        | Except.error e => Except.error e
        | Except.ok rot' =>
          match atualizar_rotas (atualizar_entrada st.tabela p).2 nIp rot' with
          | Except.error e => Except.error e
          | Except.ok cmds =>
            Except.ok (true, LSDBState.mk (atualizar_entrada st.tabela p).2 rot', cmds)) =
      Except.error ("KeyError: " ++ selfId)
    rw [dijkstra_erro_sem_local selfId _ hnone']

theorem dijkstra_requer_entrada_local_witness :
    dijkstra "a" [("b", criar_entrada 1 0 [] [])] = .error ("KeyError: " ++ "a") :=
  dijkstra_requer_entrada_local.1 "a" [("b", criar_entrada 1 0 [] [])] rfl

/-- C5: `ProcessadorLSA.processar` forwards the packet verbatim to every
recognized-neighbor IP except the source iff `LSDB.atualizar` accepted;
a stale packet is dropped with no LSDB, next-hop or route-command
changes. -/
theorem processadorLSA_inunda_sse_aceito (selfId : String)
    (nIp : List (String × String)) (st : LSDBState) (p : PacoteLSA) (rip : String) :
    ((atualizar_entrada st.tabela p).1 = false →
        processadorLSA selfId nIp st p rip = .ok (st, [], []))
    ∧ (∀ st2 sends cmds,
        processadorLSA selfId nIp st p rip = .ok (st2, sends, cmds) →
        (atualizar_entrada st.tabela p).1 = true →
        sends = ((nIp.map Prod.snd).filter (fun ip => ip != rip)).map (fun ip => (p, ip))) := by
  constructor
  · intro hfalse
    have hpair : atualizar_entrada st.tabela p =
        (false, (atualizar_entrada st.tabela p).2) := by rw [← hfalse]
    have h1 : lsdb_atualizar selfId nIp st p = .ok (false, st, []) := by
      unfold lsdb_atualizar
      rw [hpair]
    unfold processadorLSA
    rw [h1]
    rfl
  · intro st2 sends cmds hok hacc
    unfold processadorLSA at hok
    cases hl : lsdb_atualizar selfId nIp st p with
    | error e =>
      rw [hl] at hok
      cases hok
    | ok tri =>
      obtain ⟨b, st', cmds'⟩ := tri
      rw [hl] at hok
      have hb : b = true := by
        unfold lsdb_atualizar at hl
        split at hl
        · rename_i hfst
          rw [hfst] at hacc
          cases hacc
        · split at hl
          · cases hl
          · split at hl
            · cases hl
            · split at hl
              · cases hl
              · simp only [Except.ok.injEq, Prod.mk.injEq] at hl
                exact hl.1.symm
      subst hb
      have hok2 : (Except.ok (st', encaminhar_para_vizinhos nIp p rip, cmds') :
          Except String (LSDBState × List (PacoteLSA × String) × List (List String))) =
          Except.ok (st2, sends, cmds) := hok
      simp only [Except.ok.injEq, Prod.mk.injEq] at hok2
      rw [← hok2.2.1]
      rfl

theorem processadorLSA_inunda_sse_aceito_witness :
    processadorLSA "z" [] (LSDBState.mk (applyAll [] [pacoteA]) []) pacoteA "10.0.0.1" =
      .ok (LSDBState.mk (applyAll [] [pacoteA]) [], [], []) :=
  (processadorLSA_inunda_sse_aceito "z" [] (LSDBState.mk (applyAll [] [pacoteA]) [])
    pacoteA "10.0.0.1").1 rfl

/-- C6: a HELLO from a neighbor with neither CUSTO environment variable
set is dropped by the cost lookup before any table mutation:
`detected_cost` and `recognized_ip` are unchanged, and any later packet
is processed exactly as if the dropped one had never arrived. -/
theorem hello_custo_ausente (env : String → Option String) (selfId : String)
    (st : HelloState) (p : PacoteHello) (rip : String) (rid : String)
    (hrid : p.router_id = some rid)
    (h1 : env (custoKey selfId rid) = none)
    (h2 : env (custoKey rid selfId) = none) :
    processar_hello env selfId st p rip =
      .error ("Custo não definido para " ++ selfId ++ " <-> " ++ rid)
    ∧ receiverStep env selfId st p rip = st
    ∧ (∀ p2 rip2, receiverStep env selfId (receiverStep env selfId st p rip) p2 rip2 =
        receiverStep env selfId st p2 rip2) := by
  have hob : obter env selfId rid =
      .error ("Custo não definido para " ++ selfId ++ " <-> " ++ rid) := by
    simp only [obter, h1, h2]
  have hproc : processar_hello env selfId st p rip =
      .error ("Custo não definido para " ++ selfId ++ " <-> " ++ rid) := by
    simp only [processar_hello, hrid, hob]
  have hstep : receiverStep env selfId st p rip = st := by
    unfold receiverStep
    rw [hproc]
  refine ⟨hproc, hstep, ?_⟩
  intro p2 rip2
  rw [hstep]

theorem hello_custo_ausente_witness :
    receiverStep envVazio "a" estadoInicial (PacoteHello.mk (some "b") (some ["a"]))
      "10.0.0.2" = estadoInicial :=
  (hello_custo_ausente envVazio "a" estadoInicial (PacoteHello.mk (some "b") (some ["a"]))
    "10.0.0.2" "b" rfl rfl rfl).2.1

/-- C9 counterexample: with CUSTO_a_b_net set to the empty string and
CUSTO_b_a_net set to "7", the lookup does not fall through to the second
variable (os.getenv returns "" which is not None): `int("")` fails
instead of returning 7. -/
theorem obter_vazio_nao_consulta_segunda :
    envC9 (custoKey "a" "b") = some "" ∧
    envC9 (custoKey "b" "a") = some "7" ∧
    pythonInt "7" = some 7 ∧
    obter envC9 "a" "b" = .error ("invalid literal for int() with base 10: ") ∧
    obter envC9 "a" "b" ≠ .ok 7 := by
  have h4 : obter envC9 "a" "b" =
      .error ("invalid literal for int() with base 10: ") := rfl
  refine ⟨rfl, rfl, rfl, h4, ?_⟩
  rw [h4]
  intro h
  cases h

/-- C9 (amended): `CalculadoraCusto.obter` returns the Python-int parse
of the first *set* (even if empty) of CUSTO_<self>_<n>_net then
CUSTO_<n>_<self>_net; the second variable is consulted only when the
first is unset, and the call fails when neither is set or when the
chosen value does not parse as an integer. -/
theorem obter_primeira_definida (env : String → Option String) (r n : String) :
    (∀ v, env (custoKey r n) = some v →
        obter env r n =
          (match pythonInt v with
            | some i => .ok i
            | none => .error ("invalid literal for int() with base 10: " ++ v)))
    ∧ (env (custoKey r n) = none → ∀ v, env (custoKey n r) = some v →
        obter env r n =
          (match pythonInt v with
            | some i => .ok i
            | none => .error ("invalid literal for int() with base 10: " ++ v)))
    ∧ (env (custoKey r n) = none → env (custoKey n r) = none →
        obter env r n = .error ("Custo não definido para " ++ r ++ " <-> " ++ n)) := by
  refine ⟨?_, ?_, ?_⟩
  · intro v hv
    simp only [obter, hv]
  · intro h1 v hv
    simp only [obter, h1, hv]
  · intro h1 h2
    simp only [obter, h1, h2]

theorem obter_primeira_definida_witness :
    obter envVazio "a" "b" = .error ("Custo não definido para " ++ "a" ++ " <-> " ++ "b") :=
  (obter_primeira_definida envVazio "a" "b").2.2 rfl rfl

/-- C3 counterexample: after a HELLO from b that does not list a, b is
in `detected_cost` but not in `recognized_ip`, and the next HELLO built
by the emitter carries known_neighbors = ["b"], which differs from the
(sorted) list of recognized ids, []. -/
theorem hello_known_neighbors_cex :
    (receiverStep envC3 "a" estadoInicial helloDeB "10.0.0.2").detected = [("b", 5)] ∧
    (receiverStep envC3 "a" estadoInicial helloDeB "10.0.0.2").recognized = [] ∧
    (roteador_hello_pacote "a" (receiverStep envC3 "a" estadoInicial helloDeB "10.0.0.2")
      0 "10.0.0.1").known_neighbors = ["b"] ∧
    (["b"] : List String) ≠ [] := by
  refine ⟨rfl, rfl, rfl, ?_⟩
  simp

/-- C3 (amended): every HELLO packet built by the emitter (as wired in
`Roteador.iniciar`) carries known_neighbors equal to the list of
router-ids currently present in `detected_cost`, in dict insertion
order (not the sorted recognized ids). -/
theorem hello_known_neighbors_detectados (selfId : String) (st : HelloState)
    (ts : Int) (ip : String) :
    (roteador_hello_pacote selfId st ts ip).known_neighbors =
      st.detected.map Prod.fst := rfl

/-- C4 counterexample: with one inter-router interface (10.0.0.2) and
one local subnet (192.168.1.0/24), the LSA addresses field contains the
inter-router IP as well, so it is not the list of LocalPrefix prefixes
alone. -/
theorem lsa_addresses_cex :
    listar_enderecos ifsDemo =
      [⟨"10.0.0.2", some (some "10.0.0.255")⟩, ⟨"192.168.1.0/24", none⟩] ∧
    (lsa_criar_pacote "a" [] (listar_enderecos ifsDemo) 0 0).1.addresses =
      ["10.0.0.2", "192.168.1.0/24"] ∧
    specLocalPrefixes (listar_enderecos ifsDemo) = ["192.168.1.0/24"] ∧
    (lsa_criar_pacote "a" [] (listar_enderecos ifsDemo) 0 0).1.addresses ≠
      specLocalPrefixes (listar_enderecos ifsDemo) := by
  have ha : (lsa_criar_pacote "a" [] (listar_enderecos ifsDemo) 0 0).1.addresses =
      ["10.0.0.2", "192.168.1.0/24"] := rfl
  have hb : specLocalPrefixes (listar_enderecos ifsDemo) = ["192.168.1.0/24"] := rfl
  refine ⟨rfl, ha, hb, ?_⟩
  rw [ha, hb]
  simp

/-- C4 (amended): every LSA built by the emitter has addresses equal to
the address field of *every* interface-inventory entry (local /24
prefixes and inter-router link IPs alike, in inventory order), a
sequence number equal to the previous counter plus one, and links equal
to a copy of the detected-cost map. -/
theorem lsa_pacote_campos (routerId : String) (nc : List (String × Int))
    (ifs : List IfEntry) (seqBefore : Int) (ts : Int) :
    (lsa_criar_pacote routerId nc ifs seqBefore ts).1.addresses = ifs.map IfEntry.address
    ∧ (lsa_criar_pacote routerId nc ifs seqBefore ts).1.sequence_number = seqBefore + 1
    ∧ (lsa_criar_pacote routerId nc ifs seqBefore ts).2 = seqBefore + 1
    ∧ (lsa_criar_pacote routerId nc ifs seqBefore ts).1.links = nc :=
  ⟨rfl, rfl, rfl, rfl⟩

-- Lemmas for the next-hop table ----------------------------------------

theorem walk_ok_some (cam : CamMap) (selfId : String) (fuel : Nat) :
    ∀ (pulo : Option String) (h : String),
      walk cam selfId fuel pulo = .ok (some h) →
      dlookup cam h = some (some selfId) := by
  induction fuel with
  | zero =>
    intro pulo h hw
    cases pulo with
    | none => simp [walk] at hw
    | some p =>
      simp only [walk] at hw
      cases hl : dlookup cam p with
      | none => rw [hl] at hw; cases hw
      | some pred =>
        rw [hl] at hw
        have hw2 : (if pred = some selfId then (Except.ok (some p) : Except String (Option String))
            else Except.error "predecessor walk does not terminate") = Except.ok (some h) := hw
        by_cases hp : pred = some selfId
        · rw [if_pos hp] at hw2
          injection hw2 with hw'
          injection hw' with hw''
          subst hw''
          rw [hl, hp]
        · rw [if_neg hp] at hw2
          cases hw2
  | succ n ih =>
    intro pulo h hw
    cases pulo with
    | none => simp [walk] at hw
    | some p =>
      simp only [walk] at hw
      cases hl : dlookup cam p with
      | none => rw [hl] at hw; cases hw
      | some pred =>
        rw [hl] at hw
        have hw2 : (if pred = some selfId then (Except.ok (some p) : Except String (Option String))
            else walk cam selfId n pred) = Except.ok (some h) := hw
        by_cases hp : pred = some selfId
        · rw [if_pos hp] at hw2
          injection hw2 with hw'
          injection hw' with hw''
          subst hw''
          rw [hl, hp]
        · rw [if_neg hp] at hw2
          exact ih pred h hw2

theorem mem_keys_dinsert {α : Type} (l : List (String × α)) (k a : String) (v : α) :
    a ∈ (dinsert l k v).map Prod.fst ↔ a ∈ l.map Prod.fst ∨ a = k := by
  induction l with
  | nil => simp [dinsert]
  | cons hd tl ih =>
    obtain ⟨k0, v0⟩ := hd
    by_cases h0 : k0 = k
    · subst h0
      simp [dinsert]
      tauto
    · simp [dinsert, h0, ih]
      tauto

theorem dinsert_nodup_keys {α : Type} (l : List (String × α)) (k : String) (v : α)
    (h : (l.map Prod.fst).Nodup) : ((dinsert l k v).map Prod.fst).Nodup := by
  induction l with
  | nil => simp [dinsert]
  | cons hd tl ih =>
    obtain ⟨k0, v0⟩ := hd
    simp only [List.map_cons, List.nodup_cons] at h
    by_cases h0 : k0 = k
    · subst h0
      have hred : dinsert ((k0, v0) :: tl) k0 v = (k0, v) :: tl := by
        simp [dinsert]
      rw [hred]
      simp only [List.map_cons, List.nodup_cons]
      exact h
    · simp only [dinsert, if_neg h0, List.map_cons, List.nodup_cons]
      refine ⟨?_, ih h.2⟩
      intro hmem
      rcases (mem_keys_dinsert tl k k0 v).mp hmem with h1 | h1
      · exact h.1 h1
      · exact h0 h1

theorem dlookup_some_mem {α : Type} (l : List (String × α)) (k : String) (v : α)
    (h : dlookup l k = some v) : (k, v) ∈ l := by
  induction l with
  | nil => cases h
  | cons hd tl ih =>
    obtain ⟨k0, v0⟩ := hd
    simp only [dlookup] at h
    by_cases h0 : k0 = k
    · rw [if_pos h0] at h
      injection h with h'
      subst h'
      subst h0
      exact List.mem_cons_self _ _
    · rw [if_neg h0] at h
      exact List.mem_cons_of_mem _ (ih h)

theorem mem_dlookup {α : Type} (l : List (String × α)) (k : String) (v : α)
    (hnd : (l.map Prod.fst).Nodup) (h : (k, v) ∈ l) : dlookup l k = some v := by
  induction l with
  | nil => cases h
  | cons hd tl ih =>
    obtain ⟨k0, v0⟩ := hd
    simp only [List.map_cons, List.nodup_cons] at hnd
    rcases List.mem_cons.mp h with h1 | h1
    · simp only [Prod.mk.injEq] at h1
      obtain ⟨rfl, rfl⟩ := h1
      simp [dlookup]
    · have hk : k ∈ tl.map Prod.fst := by
        have := List.mem_map_of_mem Prod.fst h1
        simpa using this
      have hne : ¬ k0 = k := fun he => hnd.1 (he ▸ hk)
      simp [dlookup, hne, ih hnd.2 h1]

theorem dlookup_perm {α : Type} (l l' : List (String × α)) (hp : l.Perm l')
    (hnd : (l.map Prod.fst).Nodup) (k : String) : dlookup l k = dlookup l' k := by
  have hnd' : (l'.map Prod.fst).Nodup := ((hp.map Prod.fst).nodup_iff).mp hnd
  cases hl : dlookup l k with
  | none =>
    have hnot : k ∉ l.map Prod.fst := (dlookup_none_iff l k).mp hl
    have hnot' : k ∉ l'.map Prod.fst := fun hmem =>
      hnot (((hp.map Prod.fst).mem_iff).mpr hmem)
    exact ((dlookup_none_iff l' k).mpr hnot').symm
  | some v =>
    have hmem := dlookup_some_mem l k v hl
    exact (mem_dlookup l' k v hnd' (hp.mem_iff.mp hmem)).symm

theorem insertSortedRot_perm (x : String × Option String) (l : RotMap) :
    (insertSortedRot x l).Perm (x :: l) := by
  induction l with
  | nil => exact List.Perm.refl _
  | cons y ys ih =>
    simp only [insertSortedRot]
    by_cases hlt : strLt x.1 y.1 = true
    · rw [if_pos hlt]
    · rw [if_neg hlt]
      exact (ih.cons y).trans (List.Perm.swap x y ys)

theorem sortByKey_perm (l : RotMap) : (sortByKey l).Perm l := by
  induction l with
  | nil => exact List.Perm.refl _
  | cons x xs ih =>
    simp only [sortByKey, List.foldr_cons]
    have h1 : (insertSortedRot x (sortByKey xs)).Perm (x :: sortByKey xs) :=
      insertSortedRot_perm x (sortByKey xs)
    exact h1.trans (ih.cons x)

theorem proximoPuloFold_unchanged (cam : CamMap) (selfId : String) :
    ∀ (l : CamMap) (rot rot1 : RotMap),
      proximoPuloFold cam selfId rot l = .ok rot1 →
      ∀ k, (k ∉ l.map Prod.fst ∨ k = selfId) →
        dlookup rot1 k = dlookup rot k := by
  intro l
  induction l with
  | nil =>
    intro rot rot1 hf k _
    simp only [proximoPuloFold] at hf
    injection hf with h
    subst h
    rfl
  | cons d l ih =>
    intro rot rot1 hf k hk
    obtain ⟨destino, cv⟩ := d
    simp only [proximoPuloFold] at hf
    have hk' : k ∉ l.map Prod.fst ∨ k = selfId := by
      rcases hk with hk | hk
      · exact Or.inl (fun hmem => hk (by simp [hmem]))
      · exact Or.inr hk
    by_cases hd : destino = selfId
    · rw [if_pos hd] at hf
      exact ih rot rot1 hf k hk'
    · rw [if_neg hd] at hf
      cases hw : walk cam selfId (cam.length + 1) (some destino) with
      | error e => rw [hw] at hf; cases hf
      | ok pulo =>
        rw [hw] at hf
        rw [ih (dinsert rot destino pulo) rot1 hf k hk']
        rcases hk with hk | hk
        · have hne : k ≠ destino := fun he => hk (by simp [he])
          rw [dlookup_dinsert_ne _ _ _ _ hne]
        · subst hk
          rw [dlookup_dinsert_ne _ _ _ _ (Ne.symm hd)]

theorem proximoPuloFold_walk (cam : CamMap) (selfId : String) :
    ∀ (l : CamMap) (rot rot1 : RotMap),
      proximoPuloFold cam selfId rot l = .ok rot1 →
      ∀ k, k ∈ l.map Prod.fst → k ≠ selfId →
        ∃ w, walk cam selfId (cam.length + 1) (some k) = .ok w ∧
          dlookup rot1 k = some w := by
  intro l
  induction l with
  | nil =>
    intro rot rot1 _ k hk
    simp at hk
  | cons d l ih =>
    intro rot rot1 hf k hk hne
    obtain ⟨destino, cv⟩ := d
    simp only [proximoPuloFold] at hf
    by_cases hd : destino = selfId
    · rw [if_pos hd] at hf
      rcases (show k = destino ∨ k ∈ l.map Prod.fst by simpa using hk) with h1 | h1
      · exact absurd (h1.trans hd) hne
      · exact ih rot rot1 hf k h1 hne
    · rw [if_neg hd] at hf
      cases hw : walk cam selfId (cam.length + 1) (some destino) with
      | error e => rw [hw] at hf; cases hf
      | ok pulo =>
        rw [hw] at hf
        by_cases hkd : k = destino
        · subst hkd
          by_cases hmem : k ∈ l.map Prod.fst
          · exact ih _ rot1 hf k hmem hne
          · refine ⟨pulo, hw, ?_⟩
            rw [proximoPuloFold_unchanged cam selfId l _ rot1 hf k (Or.inl hmem)]
            exact dlookup_dinsert_self rot k pulo
        · rcases (show k = destino ∨ k ∈ l.map Prod.fst by simpa using hk) with h1 | h1
          · exact absurd h1 hkd
          · exact ih _ rot1 hf k h1 hne

theorem proximoPuloFold_origem (cam : CamMap) (selfId : String) :
    ∀ (l : CamMap) (rot rot1 : RotMap),
      proximoPuloFold cam selfId rot l = .ok rot1 →
      ∀ k w, dlookup rot1 k = some w →
        dlookup rot k = some w ∨
          (k ≠ selfId ∧ walk cam selfId (cam.length + 1) (some k) = .ok w) := by
  intro l
  induction l with
  | nil =>
    intro rot rot1 hf k w hl
    simp only [proximoPuloFold] at hf
    injection hf with h
    subst h
    exact Or.inl hl
  | cons d l ih =>
    intro rot rot1 hf k w hl
    obtain ⟨destino, cv⟩ := d
    simp only [proximoPuloFold] at hf
    by_cases hd : destino = selfId
    · rw [if_pos hd] at hf
      exact ih rot rot1 hf k w hl
    · rw [if_neg hd] at hf
      cases hw : walk cam selfId (cam.length + 1) (some destino) with
      | error e => rw [hw] at hf; cases hf
      | ok pulo =>
        rw [hw] at hf
        rcases ih _ rot1 hf k w hl with h1 | h1
        · by_cases hkd : k = destino
          · subst hkd
            rw [dlookup_dinsert_self] at h1
            injection h1 with h1'
            subst h1'
            exact Or.inr ⟨hd, hw⟩
          · rw [dlookup_dinsert_ne _ _ _ _ hkd] at h1
            exact Or.inl h1
        · exact Or.inr h1

theorem proximoPuloFold_nodup (cam : CamMap) (selfId : String) :
    ∀ (l : CamMap) (rot rot1 : RotMap),
      proximoPuloFold cam selfId rot l = .ok rot1 →
      (rot.map Prod.fst).Nodup → (rot1.map Prod.fst).Nodup := by
  intro l
  induction l with
  | nil =>
    intro rot rot1 hf hnd
    simp only [proximoPuloFold] at hf
    injection hf with h
    subst h
    exact hnd
  | cons d l ih =>
    intro rot rot1 hf hnd
    obtain ⟨destino, cv⟩ := d
    simp only [proximoPuloFold] at hf
    by_cases hd : destino = selfId
    · rw [if_pos hd] at hf
      exact ih rot rot1 hf hnd
    · rw [if_neg hd] at hf
      cases hw : walk cam selfId (cam.length + 1) (some destino) with
      | error e => rw [hw] at hf; cases hf
      | ok pulo =>
        rw [hw] at hf
        exact ih _ rot1 hf (dinsert_nodup_keys rot destino pulo hnd)

/-- C2 counterexample: on a genuine SPF output for a two-router LSDB
where b is unreachable from a, the walk for destination b reaches nil
and yet `atualizar_proximo_pulo` installs the entry b ↦ None instead of
omitting the destination. -/
theorem proximo_pulo_nao_omite_cex :
    dijkstra "a" (applyAll [] [pacoteA, pacoteB]) = .ok camAB ∧
    atualizar_proximo_pulo "a" [] camAB = .ok [("b", none)] ∧
    dlookup [("b", (none : Option String))] "b" = some none ∧
    (some (none : Option String)) ≠ none := by
  refine ⟨rfl, rfl, rfl, ?_⟩
  simp

/-- C2 (amended): from an empty routing table, the next-hop table built
by `atualizar_proximo_pulo` contains an entry for every destination of
the predecessor map other than the local router: the backward-walk
result, which is the first hop (a node whose predecessor is the local
router) when the walk reaches one, and None when the walk reaches nil —
such destinations are not omitted.  Only the local router itself is
omitted. -/
theorem atualizar_proximo_pulo_caracterizacao (selfId : String) (cam : CamMap)
    (rot1 : RotMap) (hok : atualizar_proximo_pulo selfId [] cam = .ok rot1) :
    (∀ d, d ∈ cam.map Prod.fst → d ≠ selfId →
        ∃ w, walk cam selfId (cam.length + 1) (some d) = .ok w ∧
          dlookup rot1 d = some w)
    ∧ dlookup rot1 selfId = none
    ∧ (∀ d h, dlookup rot1 d = some (some h) →
        dlookup cam h = some (some selfId)) := by
  unfold atualizar_proximo_pulo at hok
  cases hf : proximoPuloFold cam selfId [] cam with
  | error e => rw [hf] at hok; cases hok
  | ok racc =>
    rw [hf] at hok
    injection hok with hok'
    subst hok'
    have hnd : (racc.map Prod.fst).Nodup :=
      proximoPuloFold_nodup cam selfId cam [] racc hf (by simp)
    have hlook : ∀ k, dlookup (sortByKey racc) k = dlookup racc k := by
      intro k
      exact (dlookup_perm racc (sortByKey racc) (sortByKey_perm racc).symm hnd k).symm
    refine ⟨?_, ?_, ?_⟩
    · intro d hd hne
      obtain ⟨w, hw, hl⟩ := proximoPuloFold_walk cam selfId cam [] racc hf d hd hne
      exact ⟨w, hw, by rw [hlook]; exact hl⟩
    · rw [hlook]
      rw [proximoPuloFold_unchanged cam selfId cam [] racc hf selfId (Or.inr rfl)]
      rfl
    · intro d h hl
      rw [hlook] at hl
      rcases proximoPuloFold_origem cam selfId cam [] racc hf d (some h) hl with h1 | h1
      · cases h1
      · exact walk_ok_some cam selfId (cam.length + 1) (some d) h h1.2

theorem atualizar_proximo_pulo_caracterizacao_witness :
    dlookup [("b", (none : Option String))] "a" = none :=
  (atualizar_proximo_pulo_caracterizacao "a" camAB [("b", none)] rfl).2.1
